import Mathlib

/-!
Verification of the GigUp gig-marketplace backend.

This file gives a shallow embedding of the parts of the repository that the
specified properties speak about: the matching and scoring engine
(`utils/location.py`), the access gates and the verification-code ledger
(`routes/auth.py`), the gig / application / contract state transitions
(`routes/gigs.py`, `routes/contracts.py`), and the recommendation endpoint
(`routes/gigs.py`).  Database tables are embedded as lists of row structures,
SQL `UPDATE ... WHERE id = ?` statements as maps over those lists, `fetchone`
as `List.find?`, and the ambient request context (session user, current time,
generated random tokens) as explicit parameters.  Real-number quantities
(coordinates, distances, scores, pay) are embedded as rationals; the
haversine distance, being transcendental, is abstracted as a distance oracle
parameter where the properties at stake do not depend on its values.
-/

namespace GigUp

/-- Python truthiness of a nullable string column: `None` and the empty
string are falsy, every other string is truthy. -/
def truthyStr : Option String → Bool
  | none => false
  | some s => s != ""

/-- Python `round(x, 2)` modelled on rationals: round to the nearest
hundredth.  (CPython rounds exact half-cents to even; here halves round up.
No property proved below depends on the tie behaviour.) -/
def round2 (q : ℚ) : ℚ := (round (q * 100) : ℤ) / 100

/-- A row of the `users` table (the columns read by the embedded routes). -/
structure UserRow where
  id : Nat
  email : String
  role : String
  skills : Option String
  rating : ℚ
  is_approved : Bool
deriving DecidableEq

/-- A row of the `gigs` table (the columns read or written by the embedded
routes). -/
structure Gig where
  id : Nat
  provider_id : Nat
  skills_required : Option String
  status : String
  location_lat : ℚ
  location_lng : ℚ
  seeker_id : Option Nat
deriving DecidableEq

/-- Python `str.split(',')` over the character list: split at every comma,
keeping empty pieces (so the empty string yields one empty piece). -/
def splitCommaChars : List Char → List (List Char)
  | [] => [[]]
  | c :: rest =>
    match splitCommaChars rest, decide (c = ',') with
    | r, true => [] :: r
    | [], false => [[c]]
    | h :: t, false => (c :: h) :: t

/-- Python `str.split(',')`. -/
def splitComma (s : String) : List String :=
  (splitCommaChars s.data).map String.mk

/-- Python `str.lower()` (character-wise lower-casing; the skill strings at
stake are ASCII). -/
def lowerString (s : String) : String :=
  String.mk (s.data.map Char.toLower)

/-- The token set `set(s.lower().split(','))` built by
`calculate_match_score` in `utils/location.py`: the distinct comma-separated
tokens of the lower-cased string. -/
def skillTokens (s : String) : List String :=
  (splitComma (lowerString s)).dedup

/-- Skills component of `calculate_match_score` (`utils/location.py`
lines 24-33): overlap ratio times 50 when both skill strings are truthy,
otherwise a flat base score of 25. -/
def skillsScore (seeker_skills gig_skills : Option String) : ℚ :=
  if truthyStr seeker_skills && truthyStr gig_skills then
    if skillTokens (gig_skills.getD "") ≠ [] then
      ((((skillTokens (gig_skills.getD "")).filter
          (fun t => (skillTokens (seeker_skills.getD "")).contains t)).length
        : ℚ) / (skillTokens (gig_skills.getD "")).length) * 50
    else 0
  else 25

/-- Distance component of `calculate_match_score` (`utils/location.py`
lines 35-38): inversely proportional within 35 km, absent beyond. -/
def distanceScore (distance : ℚ) : ℚ :=
  if distance ≤ 35 then (1 - distance / 35) * 20 else 0

/-- Availability component of `calculate_match_score` (`utils/location.py`
lines 40-42): a flat 20 for an open gig. -/
def availabilityScore (status : String) : ℚ :=
  if status = "open" then 20 else 0

/-- Rating component of `calculate_match_score` (`utils/location.py`
lines 44-47): `min(rating/5.0, 1.0) * 10` for a positive rating. -/
def ratingScore (rating : ℚ) : ℚ :=
  if 0 < rating then min (rating / 5) 1 * 10 else 0

/-- `calculate_match_score(seeker, gig, distance)` from `utils/location.py`:
the sum of the four components, rounded to two decimals and capped at 100. -/
def calculate_match_score (seeker : UserRow) (gig : Gig) (distance : ℚ) : ℚ :=
  min (round2 (skillsScore seeker.skills gig.skills_required
      + distanceScore distance
      + availabilityScore gig.status
      + ratingScore seeker.rating)) 100

/-- `validate_coordinates` from `utils/validation.py`. -/
def validate_coordinates (lat lng : ℚ) : Bool :=
  decide (-90 ≤ lat ∧ lat ≤ 90) && decide (-180 ≤ lng ∧ lng ≤ 180)

/-- An error response: HTTP status code and error message. -/
structure HttpError where
  status : Nat
  error : String
deriving DecidableEq

/-- The query `SELECT ... FROM users WHERE id = ?` followed by `fetchone`. -/
def find_user (users : List UserRow) (uid : Nat) : Option UserRow :=
  users.find? (fun u => u.id == uid)

/-- The `auth_required` decorator (`routes/auth.py` lines 13-31).  The result
is the error produced by the gate (`none` means the gate let the request
through) paired with the session `user_id` it leaves behind (a vanished
account pops `user_id` from the session). -/
def auth_required (users : List UserRow) (session_user_id : Option Nat) :
    Option HttpError × Option Nat :=
  match session_user_id with
  | none => (some ⟨401, "Authentication required"⟩, none)
  | some uid =>
    match find_user users uid with
    | none => (some ⟨404, "User account not found"⟩, none)
    | some u =>
      if !u.is_approved then (some ⟨403, "Account pending approval"⟩, some uid)
      else (none, some uid)

/-- The `admin_required` decorator (`routes/auth.py` lines 33-47): it
inspects only the `role` column of the resolved user. -/
def admin_required (users : List UserRow) (session_user_id : Option Nat) :
    Option HttpError :=
  match session_user_id with
  | none => some ⟨401, "Authentication required"⟩
  | some uid =>
    match find_user users uid with
    | none => some ⟨403, "Admin access required"⟩
    | some u =>
      if u.role != "admin" then some ⟨403, "Admin access required"⟩ else none

/-- A row of the `verification_codes` table. -/
structure VCode where
  id : Nat
  user_id : Nat
  code : String
  type : String
  expires_at : Nat
  used : Bool
deriving DecidableEq

/-- `generate_verification_code` (`routes/auth.py` lines 50-66): mark every
unused code of the same (user, type) pair used, then insert the fresh code
with a 24-hour expiry.  The generated random token, the row id assigned by
the database and the current time are explicit parameters. -/
def generate_verification_code (ledger : List VCode) (next_id user_id : Nat)
    (vtype code : String) (now : Nat) : List VCode :=
  (ledger.map (fun r =>
      if r.user_id == user_id && r.type == vtype && r.used == false then
        { r with used := true }
      else r))
    ++ [⟨next_id, user_id, code, vtype, now + 24 * 3600, false⟩]

/-- The response of the password-reset request endpoint. -/
structure ResetResponse where
  status : Nat
  message : String
  reset_token : Option String
deriving DecidableEq

/-- `request_password_reset` (`routes/auth.py` lines 354-387): look the
claimed email up; when a user exists, insert a fresh `password_reset` code
with a 1-hour expiry (with no invalidation of prior codes) and echo the
token in the response; otherwise answer with a generic message. -/
def request_password_reset (users : List UserRow) (ledger : List VCode)
    (next_id : Nat) (email : Option String) (token : String) (now : Nat) :
    ResetResponse × List VCode :=
  match email with
  | none => (⟨400, "Email required", none⟩, ledger)
  | some e =>
    if e = "" then (⟨400, "Email required", none⟩, ledger)
    else
      match users.find? (fun u => u.email == e) with
      | some u =>
        (⟨200, "Password reset instructions sent", some token⟩,
         ledger ++ [⟨next_id, u.id, token, "password_reset", now + 3600, false⟩])
      | none =>
        (⟨200, "If the email exists, reset instructions have been sent", none⟩,
         ledger)

/-- The SQL filter of `verify_account` (`routes/auth.py` lines 333-336): an
unused, unexpired row exactly matching (user, type, code). -/
def vcodeMatches (user_id : Nat) (vtype code : String) (now : Nat)
    (r : VCode) : Bool :=
  r.user_id == user_id && r.type == vtype && r.code == code &&
    r.used == false && decide (now < r.expires_at)

/-- `mark_verification_code_used` (`routes/auth.py` lines 77-81). -/
def mark_verification_code_used (ledger : List VCode) (vid : Nat) :
    List VCode :=
  ledger.map (fun r => if r.id == vid then { r with used := true } else r)

/-- The ledger-facing core of `verify_account` (`routes/auth.py`
lines 317-351): request guards, then fetch one matching code; on a hit mark
that row used.  (The `verified_email` / `verified_phone` column update lives
in the `users` table, outside the ledger.)  Returns whether consumption
succeeded together with the ledger left behind. -/
def verify_account (ledger : List VCode) (user_id : Nat) (vtype : String)
    (code : Option String) (now : Nat) : Bool × List VCode :=
  if vtype ≠ "email" ∧ vtype ≠ "phone" then (false, ledger)
  else
    match code with
    | none => (false, ledger)
    | some c =>
      if c = "" then (false, ledger)
      else
        match ledger.find? (vcodeMatches user_id vtype c now) with
        | none => (false, ledger)
        | some v => (true, mark_verification_code_used ledger v.id)

/-- A row of the `applications` table. -/
structure Application where
  id : Nat
  gig_id : Nat
  seeker_id : Nat
  status : String
deriving DecidableEq

/-- A row of the `contracts` table (the columns the embedded routes touch). -/
structure Contract where
  id : Nat
  gig_id : Nat
  provider_id : Nat
  seeker_id : Nat
  provider_signature : Option String
  seeker_signature : Option String
  status : String
deriving DecidableEq

/-- The database state the gig / application / contract routes act on. -/
structure MarketState where
  gigs : List Gig
  applications : List Application
  contracts : List Contract
  next_contract_id : Nat
deriving DecidableEq

/-- The query `SELECT ... FROM gigs WHERE id = ?` followed by `fetchone`. -/
def find_gig (gigs : List Gig) (gid : Nat) : Option Gig :=
  gigs.find? (fun g => g.id == gid)

/-- The query `SELECT ... FROM contracts WHERE id = ?` and `fetchone`. -/
def find_contract (cs : List Contract) (cid : Nat) : Option Contract :=
  cs.find? (fun c => c.id == cid)

/-- `UPDATE applications SET status = ? WHERE id = ?`. -/
def set_application_status (apps : List Application) (app_id : Nat)
    (s : String) : List Application :=
  apps.map (fun x => if x.id == app_id then { x with status := s } else x)

/-- `UPDATE applications SET status = 'rejected' WHERE gig_id = ? AND
id != ?`. -/
def reject_other_applications (apps : List Application) (gid app_id : Nat) :
    List Application :=
  apps.map (fun x =>
    if x.gig_id == gid && x.id != app_id then { x with status := "rejected" }
    else x)

/-- `UPDATE gigs SET status = 'assigned', seeker_id = ? WHERE id = ?`. -/
def assign_gig (gigs : List Gig) (gid sid : Nat) : List Gig :=
  gigs.map (fun x =>
    if x.id == gid then { x with status := "assigned", seeker_id := some sid }
    else x)

/-- `UPDATE gigs SET status = ? WHERE id = ?`. -/
def set_gig_status (gigs : List Gig) (gid : Nat) (s : String) : List Gig :=
  gigs.map (fun x => if x.id == gid then { x with status := s } else x)

/-- `UPDATE gigs SET status = 'open', seeker_id = NULL WHERE id = ?`. -/
def reopen_gig (gigs : List Gig) (gid : Nat) : List Gig :=
  gigs.map (fun x =>
    if x.id == gid then { x with status := "open", seeker_id := none }
    else x)

/-- `UPDATE contracts SET provider_signature = ? WHERE id = ?`. -/
def set_provider_signature (cs : List Contract) (cid : Nat) (s : String) :
    List Contract :=
  cs.map (fun x =>
    if x.id == cid then { x with provider_signature := some s } else x)

/-- `UPDATE contracts SET seeker_signature = ? WHERE id = ?`. -/
def set_seeker_signature (cs : List Contract) (cid : Nat) (s : String) :
    List Contract :=
  cs.map (fun x =>
    if x.id == cid then { x with seeker_signature := some s } else x)

/-- `UPDATE contracts SET status = ? WHERE id = ?`. -/
def set_contract_status (cs : List Contract) (cid : Nat) (s : String) :
    List Contract :=
  cs.map (fun x => if x.id == cid then { x with status := s } else x)

/-- `update_application_status` (`routes/gigs.py` lines 241-291): the caller
must be the gig provider; the application status is updated, and on
acceptance the gig becomes `assigned` to the applicant, sibling applications
are rejected and a pending contract is inserted.  Guard failures leave the
state unchanged (the handler returns an error response instead). -/
def update_application_status (st : MarketState) (caller app_id : Nat)
    (status : String) : MarketState :=
  if status ≠ "accepted" ∧ status ≠ "rejected" then st
  else
    match st.applications.find? (fun a => a.id == app_id) with
    | none => st
    | some a =>
      match find_gig st.gigs a.gig_id with
      | none => st
      | some g =>
        if g.provider_id ≠ caller then st
        else
          if status = "accepted" then
            { st with
              applications := reject_other_applications
                (set_application_status st.applications app_id status)
                a.gig_id app_id,
              gigs := assign_gig st.gigs a.gig_id a.seeker_id,
              contracts := st.contracts ++
                [⟨st.next_contract_id, a.gig_id, g.provider_id, a.seeker_id,
                  none, none, "pending"⟩],
              next_contract_id := st.next_contract_id + 1 }
          else
            { st with
              applications :=
                set_application_status st.applications app_id status }

/-- The closing step of `sign_contract` (`routes/contracts.py` lines
65-74): re-read the updated contract row; when both signatures are present
set its status to `signed` and its gig to `in_progress`. -/
def sign_contract_finish (st : MarketState) (cid : Nat)
    (contracts1 : List Contract) : MarketState :=
  match find_contract contracts1 cid with
  | none => { st with contracts := contracts1 }
  | some updated =>
    if truthyStr updated.provider_signature &&
        truthyStr updated.seeker_signature then
      { st with
        contracts := set_contract_status contracts1 cid "signed",
        gigs := set_gig_status st.gigs updated.gig_id "in_progress" }
    else { st with contracts := contracts1 }

/-- `sign_contract` (`routes/contracts.py` lines 37-79): store the caller's
signature on their side of the contract, then re-read the row; when both
signatures are present the contract becomes `signed` and its gig
`in_progress`.  Guard failures (missing signature, unknown contract, caller
not a party) leave the state unchanged. -/
def sign_contract (st : MarketState) (caller cid : Nat)
    (signature : Option String) : MarketState :=
  if truthyStr signature = false then st
  else
    match find_contract st.contracts cid with
    | none => st
    | some c =>
      if caller ≠ c.provider_id ∧ caller ≠ c.seeker_id then st
      else
        sign_contract_finish st cid
          (if caller == c.provider_id then
            set_provider_signature st.contracts cid (signature.getD "")
          else
            set_seeker_signature st.contracts cid (signature.getD ""))

/-- `complete_contract` (`routes/contracts.py` lines 118-144): any party may
mark the contract completed; its gig becomes `completed` (the gig's
`seeker_id` is not touched). -/
def complete_contract (st : MarketState) (caller cid : Nat) : MarketState :=
  match find_contract st.contracts cid with
  | none => st
  | some c =>
    if caller ≠ c.provider_id ∧ caller ≠ c.seeker_id then st
    else
      { st with
        contracts := set_contract_status st.contracts cid "completed",
        gigs := set_gig_status st.gigs c.gig_id "completed" }

/-- `cancel_contract` (`routes/contracts.py` lines 146-173): any party may
cancel; the gig goes back to `open` with `seeker_id` set to NULL. -/
def cancel_contract (st : MarketState) (caller cid : Nat) : MarketState :=
  match find_contract st.contracts cid with
  | none => st
  | some c =>
    if caller ≠ c.provider_id ∧ caller ≠ c.seeker_id then st
    else
      { st with
        contracts := set_contract_status st.contracts cid "cancelled",
        gigs := reopen_gig st.gigs c.gig_id }

/-- An entry of the recommendation response: the gig annotated with its
rounded distance and match score (`routes/gigs.py` lines 142-144). -/
structure RecEntry where
  gig : Gig
  distance : ℚ
  match_score : ℚ
deriving DecidableEq

/-- The filter-and-score loop of `get_recommended_gigs` (`routes/gigs.py`
lines 137-145).  `dist` is an abstract oracle standing for
`haversine_distance(lat, lng, gig.location_lat, gig.location_lng)`: the
real-valued haversine is not exactly representable over the rationals, and
every property proved below holds for an arbitrary oracle. -/
def recommendation_candidates (user : UserRow) (gigs : List Gig)
    (dist : Gig → ℚ) : List RecEntry :=
  gigs.filterMap (fun g =>
    let d := dist g
    if d ≤ 35 then some ⟨g, round2 d, calculate_match_score user g d⟩
    else none)

/-- The descending-score comparison realised by
`recommendations.sort(key=lambda x: x['match_score'], reverse=True)`. -/
def scoreGe (a b : RecEntry) : Bool :=
  decide (b.match_score ≤ a.match_score)

/-- The body of `get_recommended_gigs` (`routes/gigs.py` lines 137-150):
filter by the 35 km radius, score, stable-sort by match score descending,
truncate to 20 entries. -/
def get_recommended_gigs_core (user : UserRow) (gigs : List Gig)
    (dist : Gig → ℚ) : List RecEntry :=
  ((recommendation_candidates user gigs dist).mergeSort scoreGe).take 20

/-- `get_recommended_gigs` (`routes/gigs.py` lines 117-150) with its
location guard: `if not lat or not lng` rejects an absent coordinate and,
since `0.0` is falsy in Python, a zero coordinate as well. -/
def get_recommended_gigs (user : UserRow) (gigs : List Gig)
    (dist : ℚ → ℚ → Gig → ℚ) (lat lng : Option ℚ) :
    Except HttpError (List RecEntry) :=
  match lat, lng with
  | some la, some ln =>
    if la == 0 || ln == 0 then
      .error ⟨400, "Location required for recommendations"⟩
    else .ok (get_recommended_gigs_core user gigs (dist la ln))
  | _, _ => .error ⟨400, "Location required for recommendations"⟩

/-- Fold of a sequence of `sign_contract` requests
(caller, contract id, signature). -/
def sign_sequence (st : MarketState)
    (ops : List (Nat × Nat × Option String)) : MarketState :=
  ops.foldl (fun s op => sign_contract s op.1 op.2.1 op.2.2) st

/-- Data-model invariant on a gig row (spec section 3): `seeker_id` is set
iff the status is assigned, in_progress or completed. -/
def GigInv (g : Gig) : Prop :=
  g.seeker_id.isSome = true ↔
    (g.status = "assigned" ∨ g.status = "in_progress" ∨
      g.status = "completed")

/-- Data-model invariant on a contract row (spec section 3): the status is
`signed` exactly when both signatures are present. -/
def SignInv (c : Contract) : Prop :=
  c.status = "signed" ↔
    (truthyStr c.provider_signature = true ∧
      truthyStr c.seeker_signature = true)

/-- Signature monotonicity between a contract row and its updated self: the
row keeps its identity and a present signature never becomes absent. -/
def SigPreserved (c c' : Contract) : Prop :=
  c.id = c'.id ∧
    (truthyStr c.provider_signature = true →
      truthyStr c'.provider_signature = true) ∧
    (truthyStr c.seeker_signature = true →
      truthyStr c'.seeker_signature = true)

instance : DecidablePred GigInv := fun g => by unfold GigInv; infer_instance

instance : DecidablePred SignInv := fun c => by
  unfold SignInv
  infer_instance

/-! Helper lemmas. -/

/-- After the invalidation pass of `generate_verification_code`, no row of
the prior ledger is still an unused (user, type) match. -/
theorem filter_after_invalidate (ledger : List VCode) (uid : Nat)
    (vtype : String) :
    (ledger.map (fun r =>
      if r.user_id == uid && r.type == vtype && r.used == false then
        { r with used := true }
      else r)).filter
      (fun r => r.user_id == uid && r.type == vtype && r.used == false)
    = [] := by
  induction ledger with
  | nil => rfl
  | cons h t ih =>
    by_cases hc : (h.user_id == uid && h.type == vtype && h.used == false)
      = true
    · simp only [List.map_cons, if_pos hc, List.filter_cons]
      rw [if_neg (by simp)]
      exact ih
    · simp only [List.map_cons, if_neg hc, List.filter_cons]
      exact ih

/-- The skills component always lies in [0, 50]. -/
theorem skillsScore_bounds (ss gs : Option String) :
    0 ≤ skillsScore ss gs ∧ skillsScore ss gs ≤ 50 := by
  unfold skillsScore
  split
  · split
    · rename_i hgs
      have h1 : (skillTokens (gs.getD "")).length ≠ 0 :=
        fun h => hgs (List.eq_nil_of_length_eq_zero h)
      have hn : 0 < ((skillTokens (gs.getD "")).length : ℚ) := by
        exact_mod_cast Nat.pos_of_ne_zero h1
      have hk : (((skillTokens (gs.getD "")).filter
          (fun t => (skillTokens (ss.getD "")).contains t)).length : ℚ)
          ≤ ((skillTokens (gs.getD "")).length : ℚ) := by
        exact_mod_cast List.length_filter_le _ _
      have hratio0 : 0 ≤ (((skillTokens (gs.getD "")).filter
          (fun t => (skillTokens (ss.getD "")).contains t)).length : ℚ)
          / ((skillTokens (gs.getD "")).length : ℚ) :=
        div_nonneg (by positivity) hn.le
      have hratio1 : (((skillTokens (gs.getD "")).filter
          (fun t => (skillTokens (ss.getD "")).contains t)).length : ℚ)
          / ((skillTokens (gs.getD "")).length : ℚ) ≤ 1 :=
        (div_le_one hn).mpr hk
      constructor
      · nlinarith
      · nlinarith
    · norm_num
  · norm_num

/-- The distance component lies in [0, 20] for a non-negative distance. -/
theorem distanceScore_bounds {d : ℚ} (hd : 0 ≤ d) :
    0 ≤ distanceScore d ∧ distanceScore d ≤ 20 := by
  unfold distanceScore
  split
  · rename_i h
    constructor <;> nlinarith
  · norm_num

/-- The availability component lies in [0, 20]. -/
theorem availabilityScore_bounds (s : String) :
    0 ≤ availabilityScore s ∧ availabilityScore s ≤ 20 := by
  unfold availabilityScore
  split <;> norm_num

/-- The rating component lies in [0, 10]. -/
theorem ratingScore_bounds (r : ℚ) :
    0 ≤ ratingScore r ∧ ratingScore r ≤ 10 := by
  unfold ratingScore
  split
  · rename_i h
    have h1 : 0 ≤ min (r / 5) 1 := le_min (by positivity) (by norm_num)
    have h2 : min (r / 5) 1 ≤ 1 := min_le_right _ _
    constructor <;> nlinarith
  · norm_num

/-- Rounding to two decimals preserves non-negativity. -/
theorem round2_nonneg {q : ℚ} (h : 0 ≤ q) : 0 ≤ round2 q := by
  unfold round2
  have h0 : (0 : ℤ) ≤ round (q * 100) := by
    rw [round_eq]
    exact Int.floor_nonneg.mpr (by nlinarith)
  have h1 : (0 : ℚ) ≤ ((round (q * 100) : ℤ) : ℚ) := by exact_mod_cast h0
  linarith [div_nonneg h1 (by norm_num : (0:ℚ) ≤ 100)]

/-! Theorems for the specified claims. -/

/-- C1, counterexample: issuing two password-reset codes through the
reset-request flow for the same existing account leaves two unused,
unexpired `password_reset` codes for that user, so the claimed
at-most-one-valid-code invariant fails for codes issued via the
reset-request flow. -/
theorem c1_counterexample :
    ((request_password_reset [⟨1, "a@b.com", "user", none, 0, true⟩]
        (request_password_reset [⟨1, "a@b.com", "user", none, 0, true⟩] []
          1 (some "a@b.com") "tokenA" 0).2
        2 (some "a@b.com") "tokenB" 0).2.filter
      (fun r => r.user_id == 1 && r.type == "password_reset" &&
        r.used == false && decide ((0 : Nat) < r.expires_at))).length = 2 := by
  decide

/-- C1 (amended): issuance via `generate_verification_code` (the email and
phone flows) leaves exactly one unused code for the (user, type) pair,
namely the newly stored one, so at most one unused, unexpired code exists
afterwards; the password-reset request flow, however, inserts its new code
without invalidating prior unused `password_reset` codes. -/
theorem c1_issue_invalidates_prior (ledger : List VCode)
    (next_id user_id : Nat) (vtype code : String) (now : Nat) :
    (generate_verification_code ledger next_id user_id vtype code now).filter
      (fun r => r.user_id == user_id && r.type == vtype && r.used == false)
    = [⟨next_id, user_id, code, vtype, now + 24 * 3600, false⟩] := by
  unfold generate_verification_code
  rw [List.filter_append, filter_after_invalidate]
  simp

/-- C2, counterexample: a session resolving to a profile with role `admin`
and `is_approved` false passes the admin gate, because `admin_required`
inspects only the role column; so an authenticated but unapproved account
can succeed at admin-gated capabilities, contradicting the claim. -/
theorem c2_counterexample :
    admin_required [⟨1, "admin@gigup.com", "admin", none, 0, false⟩]
      (some 1) = none
    ∧ (⟨1, "admin@gigup.com", "admin", none, 0, false⟩
        : UserRow).is_approved = false := by
  decide

/-- C2 (amended): the approved-user gate `auth_required` always rejects a
session resolving to a profile with `is_approved` false, but the admin gate
`admin_required` checks only the role column, so a session resolving to a
profile with role `admin` succeeds there regardless of `is_approved`. -/
theorem c2_gates (users : List UserRow) (uid : Nat) (u : UserRow)
    (hfind : find_user users uid = some u) :
    (u.is_approved = false →
      (auth_required users (some uid)).1
        = some ⟨403, "Account pending approval"⟩)
    ∧ (u.role = "admin" → admin_required users (some uid) = none) := by
  constructor
  · intro hap
    simp only [auth_required, hfind]
    simp [hap]
  · intro hrole
    simp only [admin_required, hfind]
    simp [hrole]

/-- Witness for `c2_gates` at a concrete unapproved admin profile. -/
theorem c2_gates_witness :
    (auth_required [⟨1, "admin@gigup.com", "admin", none, 0, false⟩]
        (some 1)).1 = some ⟨403, "Account pending approval"⟩
    ∧ admin_required [⟨1, "admin@gigup.com", "admin", none, 0, false⟩]
        (some 1) = none := by
  have h := c2_gates [⟨1, "admin@gigup.com", "admin", none, 0, false⟩] 1
    ⟨1, "admin@gigup.com", "admin", none, 0, false⟩ (by decide)
  exact ⟨h.1 rfl, h.2 rfl⟩

/-- C3, counterexample: two password-reset issuance requests that differ
only in whether the supplied email resolves to an existing account get
different responses (different message, and the reset token is echoed only
when the account exists), so the issuance step does reveal whether the
claimed account exists. -/
theorem c3_counterexample :
    (request_password_reset [⟨1, "a@b.com", "user", none, 0, true⟩] [] 1
        (some "a@b.com") "tok" 0).1
    ≠ (request_password_reset [] [] 1 (some "a@b.com") "tok" 0).1 := by
  decide

/-- C3 (amended): both branches of the issuance step answer with HTTP
status 200, so the status code alone does not reveal account existence; the
response bodies, however, differ (message text and echoed token), so the
full response does. -/
theorem c3_issue_status (users : List UserRow) (ledger : List VCode)
    (next_id : Nat) (e token : String) (now : Nat) (he : e ≠ "") :
    (request_password_reset users ledger next_id (some e) token now).1.status
      = 200 := by
  cases hf : users.find? (fun u => u.email == e) <;>
    simp [request_password_reset, he, hf]

/-- Witness for `c3_issue_status` at a concrete email with no account. -/
theorem c3_issue_status_witness :
    (request_password_reset [] [] 1 (some "a@b.com") "tok" 0).1.status
      = 200 :=
  c3_issue_status [] [] 1 "a@b.com" "tok" 0 (by decide)

/-- C9: when either the seeker's skill string or the gig's required-skill
string is absent or empty, the skills component of the match score is
exactly 25 (not 0, not 50); in particular when both are empty. -/
theorem c9_skills_neutral (seeker : UserRow) (gig : Gig)
    (h : truthyStr seeker.skills = false ∨
      truthyStr gig.skills_required = false) :
    skillsScore seeker.skills gig.skills_required = 25
    ∧ (25 : ℚ) ≠ 0 ∧ (25 : ℚ) ≠ 50 := by
  refine ⟨?_, by norm_num, by norm_num⟩
  unfold skillsScore
  rcases h with h | h <;> simp [h]

/-- Witness for `c9_skills_neutral` with empty skill lists on both sides. -/
theorem c9_skills_neutral_witness :
    skillsScore (⟨1, "s@x.y", "user", some "", 0, true⟩ : UserRow).skills
      (⟨1, 2, some "", "open", 0, 0, none⟩ : Gig).skills_required = 25
    ∧ (25 : ℚ) ≠ 0 ∧ (25 : ℚ) ≠ 50 :=
  c9_skills_neutral ⟨1, "s@x.y", "user", some "", 0, true⟩
    ⟨1, 2, some "", "open", 0, 0, none⟩ (Or.inl (by decide))

/-- C10: the recommendation endpoint rejects a request whose latitude or
longitude equals 0.0 with the missing-location validation error (Python's
`if not lat or not lng` treats 0.0 as falsy), even though (0, 0) passes the
repository's own coordinate validation; a seeker exactly on the equator or
the prime meridian can never obtain recommendations. -/
theorem c10_zero_location_rejected (user : UserRow) (gigs : List Gig)
    (dist : ℚ → ℚ → Gig → ℚ) (lat lng : Option ℚ) :
    get_recommended_gigs user gigs dist (some 0) lng
      = .error ⟨400, "Location required for recommendations"⟩
    ∧ get_recommended_gigs user gigs dist lat (some 0)
      = .error ⟨400, "Location required for recommendations"⟩
    ∧ validate_coordinates 0 0 = true := by
  refine ⟨?_, ?_, by decide⟩
  · cases lng with
    | none => rfl
    | some ln => simp [get_recommended_gigs]
  · cases lat with
    | none => rfl
    | some la => simp [get_recommended_gigs]

/-- Rounding to two decimals fixes the integer 100. -/
theorem round2_hundred : round2 100 = 100 := by
  unfold round2
  rw [show ((100 : ℚ) * 100) = ((10000 : ℤ) : ℚ) by norm_num, round_intCast]
  norm_num

/-- At exact full skill overlap, distance 0, an open gig and rating 5 the
match score is exactly 100. -/
theorem score_perfect :
    calculate_match_score
      ⟨1, "s@x.y", "user", some "plumbing,electrical", 5, true⟩
      ⟨1, 2, some "plumbing,electrical", "open", 0, 0, none⟩ 0 = 100 := by
  have htok : skillTokens "plumbing,electrical" = ["plumbing", "electrical"]
    := by decide
  have hsk : skillsScore (some "plumbing,electrical")
      (some "plumbing,electrical") = 50 := by
    unfold skillsScore
    rw [if_pos (by decide), if_pos (by decide)]
    simp only [Option.getD_some, htok]
    rw [show (["plumbing", "electrical"].filter
        (fun t => ["plumbing", "electrical"].contains t))
      = ["plumbing", "electrical"] from by decide]
    norm_num
  have hd0 : distanceScore 0 = 20 := by norm_num [distanceScore]
  have hav : availabilityScore "open" = 20 := by simp [availabilityScore]
  have hrt : ratingScore 5 = 10 := by norm_num [ratingScore, min_self]
  unfold calculate_match_score
  dsimp only
  rw [hsk, hd0, hav, hrt]
  norm_num [round2_hundred, min_self]

/-- C6: for every seeker profile, gig and non-negative distance the match
score lies in [0, 100] and is a multiple of 1/100 (two decimal places); and
at the specific input with exact full skill overlap, distance 0, an open
gig and seeker rating 5.0 the score is exactly 100. -/
theorem c6_score_bounds (seeker : UserRow) (gig : Gig) (d : ℚ)
    (hd : 0 ≤ d) :
    0 ≤ calculate_match_score seeker gig d
    ∧ calculate_match_score seeker gig d ≤ 100
    ∧ (∃ n : ℤ, calculate_match_score seeker gig d = (n : ℚ) / 100)
    ∧ calculate_match_score
        ⟨1, "s@x.y", "user", some "plumbing,electrical", 5, true⟩
        ⟨1, 2, some "plumbing,electrical", "open", 0, 0, none⟩ 0 = 100 := by
  have hs := skillsScore_bounds seeker.skills gig.skills_required
  have hdi := distanceScore_bounds hd
  have ha := availabilityScore_bounds gig.status
  have hr := ratingScore_bounds seeker.rating
  refine ⟨?_, ?_, ?_, score_perfect⟩
  · unfold calculate_match_score
    refine le_min (round2_nonneg ?_) (by norm_num)
    linarith [hs.1, hdi.1, ha.1, hr.1]
  · unfold calculate_match_score
    exact min_le_right _ _
  · rcases le_total (round2 (skillsScore seeker.skills gig.skills_required
        + distanceScore d + availabilityScore gig.status
        + ratingScore seeker.rating)) 100 with h | h
    · refine ⟨round ((skillsScore seeker.skills gig.skills_required
        + distanceScore d + availabilityScore gig.status
        + ratingScore seeker.rating) * 100), ?_⟩
      rw [calculate_match_score, min_eq_left h]
      rfl
    · refine ⟨10000, ?_⟩
      rw [calculate_match_score, min_eq_right h]
      norm_num

/-- Witness for `c6_score_bounds` at the full-overlap input. -/
theorem c6_score_bounds_witness :
    0 ≤ calculate_match_score
        ⟨1, "s@x.y", "user", some "plumbing,electrical", 5, true⟩
        ⟨1, 2, some "plumbing,electrical", "open", 0, 0, none⟩ 0
    ∧ calculate_match_score
        ⟨1, "s@x.y", "user", some "plumbing,electrical", 5, true⟩
        ⟨1, 2, some "plumbing,electrical", "open", 0, 0, none⟩ 0 ≤ 100
    ∧ (∃ n : ℤ, calculate_match_score
        ⟨1, "s@x.y", "user", some "plumbing,electrical", 5, true⟩
        ⟨1, 2, some "plumbing,electrical", "open", 0, 0, none⟩ 0
          = (n : ℚ) / 100)
    ∧ calculate_match_score
        ⟨1, "s@x.y", "user", some "plumbing,electrical", 5, true⟩
        ⟨1, 2, some "plumbing,electrical", "open", 0, 0, none⟩ 0 = 100 :=
  c6_score_bounds ⟨1, "s@x.y", "user", some "plumbing,electrical", 5, true⟩
    ⟨1, 2, some "plumbing,electrical", "open", 0, 0, none⟩ 0 (by norm_num)

/-- C5: for every seeker, gig set and distance oracle, the recommendation
ranker returns at most 20 entries, sorted by match score descending, and
never includes a gig whose distance exceeds 35 km; a gig at exactly 35 km
passes the radius filter (its entry is among the candidates) while the
distance sub-score at 35 km is exactly 0, so the two boundaries agree. -/
theorem c5_ranker (user : UserRow) (gigs : List Gig) (dist : Gig → ℚ) :
    (get_recommended_gigs_core user gigs dist).length ≤ 20
    ∧ (get_recommended_gigs_core user gigs dist).Pairwise
        (fun a b => b.match_score ≤ a.match_score)
    ∧ (∀ e ∈ get_recommended_gigs_core user gigs dist, dist e.gig ≤ 35)
    ∧ (∀ g ∈ gigs, dist g = 35 →
        (⟨g, round2 (dist g), calculate_match_score user g (dist g)⟩
          : RecEntry) ∈ recommendation_candidates user gigs dist)
    ∧ distanceScore 35 = 0 := by
  have htrans : ∀ a b c : RecEntry,
      scoreGe a b → scoreGe b c → scoreGe a c := by
    intro a b c h1 h2
    simp only [scoreGe, decide_eq_true_eq] at h1 h2 ⊢
    exact le_trans h2 h1
  have htotal : ∀ a b : RecEntry, scoreGe a b || scoreGe b a := by
    intro a b
    simp only [scoreGe, Bool.or_eq_true, decide_eq_true_eq]
    exact le_total b.match_score a.match_score
  refine ⟨?_, ?_, ?_, ?_, ?_⟩
  · unfold get_recommended_gigs_core
    rw [List.length_take]
    exact min_le_left _ _
  · unfold get_recommended_gigs_core
    have hs := List.sorted_mergeSort htrans htotal
      (recommendation_candidates user gigs dist)
    exact ((hs.sublist (List.take_sublist _ _))).imp
      (fun h => by simpa [scoreGe] using h)
  · intro e he
    have h1 : e ∈ (recommendation_candidates user gigs dist).mergeSort
        scoreGe := List.mem_of_mem_take he
    have h2 : e ∈ recommendation_candidates user gigs dist :=
      List.mem_mergeSort.mp h1
    unfold recommendation_candidates at h2
    rcases List.mem_filterMap.mp h2 with ⟨g, _, hfg⟩
    by_cases hle : dist g ≤ 35
    · rw [if_pos hle] at hfg
      cases hfg
      exact hle
    · rw [if_neg hle] at hfg
      cases hfg
  · intro g hg hd
    unfold recommendation_candidates
    refine List.mem_filterMap.mpr ⟨g, hg, ?_⟩
    rw [if_pos (le_of_eq hd)]
  · unfold distanceScore
    rw [if_pos (le_refl 35)]
    norm_num

/-- Witness for `c5_ranker` with one gig at exactly 35 km. -/
theorem c5_ranker_witness :
    (get_recommended_gigs_core ⟨1, "u@x.y", "user", none, 0, true⟩
      [⟨1, 2, none, "open", 0, 0, none⟩] (fun _ => 35)).length ≤ 20
    ∧ ((⟨⟨1, 2, none, "open", 0, 0, none⟩, round2 35,
        calculate_match_score ⟨1, "u@x.y", "user", none, 0, true⟩
          ⟨1, 2, none, "open", 0, 0, none⟩ 35⟩ : RecEntry)
        ∈ recommendation_candidates ⟨1, "u@x.y", "user", none, 0, true⟩
          [⟨1, 2, none, "open", 0, 0, none⟩] (fun _ => 35))
    ∧ distanceScore 35 = 0 := by
  have h := c5_ranker ⟨1, "u@x.y", "user", none, 0, true⟩
    [⟨1, 2, none, "open", 0, 0, none⟩] (fun _ => 35)
  exact ⟨h.1, h.2.2.2.1 ⟨1, 2, none, "open", 0, 0, none⟩ (by simp) rfl,
    h.2.2.2.2⟩

/-- Any two members of a list of length at most one are equal. -/
theorem mem_eq_of_length_le_one {α : Type} {l : List α} {a b : α}
    (h : l.length ≤ 1) (ha : a ∈ l) (hb : b ∈ l) : a = b := by
  match l with
  | [] => cases ha
  | [x] =>
    rw [List.mem_singleton] at ha hb
    rw [ha, hb]
  | x :: y :: t => simp at h

/-- C7, counterexample: in a stored ledger state holding two unused,
unexpired rows with the same (user, type, code) triple, consumption
succeeds and an immediate replay of the same code succeeds as well (the
claim requires every such ledger state to reject the replay). -/
theorem c7_counterexample :
    (verify_account [⟨1, 1, "abc", "email", 100, false⟩,
        ⟨2, 1, "abc", "email", 100, false⟩] 1 "email" (some "abc") 0).1 = true
    ∧ (verify_account
        (verify_account [⟨1, 1, "abc", "email", 100, false⟩,
          ⟨2, 1, "abc", "email", 100, false⟩] 1 "email" (some "abc") 0).2
        1 "email" (some "abc") 0).1 = true := by
  decide

/-- C7 (amended): for every stored ledger state, consumption succeeds iff an
unused, unexpired row exactly matching (user, type, code) exists; on failure
the ledger is unchanged; on success the fetched row's used flag is set; and
an immediate replay of the same code fails provided the ledger held at most
one unused, unexpired row matching the triple (which issuance guarantees:
codes are high-entropy and email/phone issuance invalidates prior unused
codes of the pair). -/
theorem c7_consume (ledger : List VCode) (user_id : Nat) (vtype c : String)
    (now : Nat) (hty : vtype = "email" ∨ vtype = "phone") (hc : c ≠ "") :
    ((verify_account ledger user_id vtype (some c) now).1 = true ↔
      ∃ r ∈ ledger, vcodeMatches user_id vtype c now r = true)
    ∧ ((verify_account ledger user_id vtype (some c) now).1 = false →
        (verify_account ledger user_id vtype (some c) now).2 = ledger)
    ∧ (∀ v, ledger.find? (vcodeMatches user_id vtype c now) = some v →
        ∀ r ∈ (verify_account ledger user_id vtype (some c) now).2,
          r.id = v.id → r.used = true)
    ∧ ((ledger.filter (vcodeMatches user_id vtype c now)).length ≤ 1 →
        (verify_account ledger user_id vtype (some c) now).1 = true →
        (verify_account (verify_account ledger user_id vtype (some c) now).2
          user_id vtype (some c) now).1 = false) := by
  have hguard : ¬(vtype ≠ "email" ∧ vtype ≠ "phone") := by
    rcases hty with h | h <;> simp [h]
  have hva : ∀ led : List VCode, verify_account led user_id vtype (some c) now
      = match led.find? (vcodeMatches user_id vtype c now) with
        | none => (false, led)
        | some v => (true, mark_verification_code_used led v.id) := by
    intro led
    simp only [verify_account, if_neg hguard, if_neg hc]
  rcases hfind : ledger.find? (vcodeMatches user_id vtype c now) with _ | v
  · refine ⟨?_, ?_, ?_, ?_⟩
    · rw [hva, hfind]
      refine iff_of_false (by simp) ?_
      rintro ⟨r, hr, hpr⟩
      exact List.find?_eq_none.mp hfind r hr hpr
    · intro _
      rw [hva, hfind]
    · intro v2 hv2
      cases hv2
    · intro _ hsucc
      rw [hva, hfind] at hsucc
      cases hsucc
  · have hm : v ∈ ledger := List.mem_of_find?_eq_some hfind
    have hp : vcodeMatches user_id vtype c now v = true :=
      List.find?_some hfind
    refine ⟨?_, ?_, ?_, ?_⟩
    · rw [hva, hfind]
      exact ⟨fun _ => ⟨v, hm, hp⟩, fun _ => rfl⟩
    · intro hfail
      rw [hva, hfind] at hfail
      cases hfail
    · intro v2 hv2 r hr hrid
      injection hv2 with hv2
      subst hv2
      rw [hva, hfind] at hr
      rcases List.mem_map.mp hr with ⟨x, _, hxr⟩
      by_cases hbe : (x.id == v.id) = true
      · rw [if_pos hbe] at hxr
        rw [← hxr]
      · rw [if_neg hbe] at hxr
        exact absurd (beq_iff_eq.mpr (hxr ▸ hrid)) hbe
    · intro hlen _
      have h2 : (verify_account ledger user_id vtype (some c) now).2
          = mark_verification_code_used ledger v.id := by
        rw [hva, hfind]
      have hnone : (mark_verification_code_used ledger v.id).find?
          (vcodeMatches user_id vtype c now) = none := by
        refine List.find?_eq_none.mpr ?_
        intro r hr
        rcases List.mem_map.mp hr with ⟨x, hx, hxr⟩
        by_cases hbe : (x.id == v.id) = true
        · rw [if_pos hbe] at hxr
          rw [← hxr]
          simp [vcodeMatches]
        · rw [if_neg hbe] at hxr
          intro hpr
          have hxmem : x ∈ ledger.filter (vcodeMatches user_id vtype c now)
            := List.mem_filter.mpr ⟨hx, hxr ▸ hpr⟩
          have hvmem : v ∈ ledger.filter (vcodeMatches user_id vtype c now)
            := List.mem_filter.mpr ⟨hm, hp⟩
          have hxv : x = v := mem_eq_of_length_le_one hlen hxmem hvmem
          exact hbe (beq_iff_eq.mpr (congrArg VCode.id hxv))
      rw [h2, hva, hnone]

/-- Witness for `c7_consume`: a replay after a successful consumption on a
singleton ledger fails. -/
theorem c7_consume_witness :
    (verify_account (verify_account [⟨1, 1, "abc", "email", 100, false⟩]
        1 "email" (some "abc") 0).2 1 "email" (some "abc") 0).1 = false :=
  (c7_consume [⟨1, 1, "abc", "email", 100, false⟩] 1 "email" "abc" 0
    (Or.inl rfl) (by decide)).2.2.2 (by decide) (by decide)

/-- Assigning a gig establishes the gig invariant on every row. -/
theorem gigInv_assign_gig (gigs : List Gig) (gid sid : Nat)
    (hinv : ∀ g ∈ gigs, GigInv g) :
    ∀ g ∈ assign_gig gigs gid sid, GigInv g := by
  intro g hg
  rcases List.mem_map.mp hg with ⟨x, hx, hxg⟩
  by_cases hbe : (x.id == gid) = true
  · rw [if_pos hbe] at hxg
    rw [← hxg]
    simp [GigInv]
  · rw [if_neg hbe] at hxg
    exact hxg ▸ hinv x hx

/-- Reopening a gig re-establishes the gig invariant on every row. -/
theorem gigInv_reopen_gig (gigs : List Gig) (gid : Nat)
    (hinv : ∀ g ∈ gigs, GigInv g) :
    ∀ g ∈ reopen_gig gigs gid, GigInv g := by
  intro g hg
  rcases List.mem_map.mp hg with ⟨x, hx, hxg⟩
  by_cases hbe : (x.id == gid) = true
  · rw [if_pos hbe] at hxg
    rw [← hxg]
    simp [GigInv]
  · rw [if_neg hbe] at hxg
    exact hxg ▸ hinv x hx

/-- Setting a gig to in_progress or completed keeps the gig invariant,
provided every row with the updated id has its seeker set. -/
theorem gigInv_set_gig_status (gigs : List Gig) (gid : Nat) (s : String)
    (hs : s = "in_progress" ∨ s = "completed")
    (hinv : ∀ g ∈ gigs, GigInv g)
    (hset : ∀ g ∈ gigs, g.id = gid → g.seeker_id.isSome = true) :
    ∀ g ∈ set_gig_status gigs gid s, GigInv g := by
  intro g hg
  rcases List.mem_map.mp hg with ⟨x, hx, hxg⟩
  by_cases hbe : (x.id == gid) = true
  · rw [if_pos hbe] at hxg
    have hss : x.seeker_id.isSome = true := hset x hx (beq_iff_eq.mp hbe)
    rw [← hxg]
    rcases hs with hs | hs <;> rw [hs] <;>
      exact iff_of_true hss (by simp)
  · rw [if_neg hbe] at hxg
    exact hxg ▸ hinv x hx

/-- Fetching a contract by id commutes with an id-preserving row map. -/
theorem find_contract_map (cs : List Contract) (cid : Nat)
    (f : Contract → Contract) (hf : ∀ x, (f x).id = x.id) :
    find_contract (cs.map f) cid = (find_contract cs cid).map f := by
  unfold find_contract
  rw [List.find?_map]
  have h : ((fun c : Contract => c.id == cid) ∘ f)
      = (fun c : Contract => c.id == cid) := by
    funext x
    simp [Function.comp, hf x]
  rw [h]

/-- The gig update of `sign_contract_finish` keeps the gig invariant when
the signature pass is an id- and gig-preserving row map and every gig whose
id a stored contract references has its seeker set. -/
theorem gigInv_sign_finish (st : MarketState) (cid : Nat)
    (f : Contract → Contract)
    (hfid : ∀ x, (f x).id = x.id) (hfgig : ∀ x, (f x).gig_id = x.gig_id)
    (hinv : ∀ g ∈ st.gigs, GigInv g)
    (hset : ∀ co ∈ st.contracts, ∀ g ∈ st.gigs, g.id = co.gig_id →
      g.seeker_id.isSome = true) :
    ∀ g ∈ (sign_contract_finish st cid (st.contracts.map f)).gigs,
      GigInv g := by
  rcases hfc : find_contract st.contracts cid with _ | c
  · have h1 : find_contract (st.contracts.map f) cid = none := by
      rw [find_contract_map st.contracts cid f hfid, hfc]
      rfl
    unfold sign_contract_finish
    rw [h1]
    exact hinv
  · have h1 : find_contract (st.contracts.map f) cid = some (f c) := by
      rw [find_contract_map st.contracts cid f hfid, hfc]
      rfl
    unfold sign_contract_finish
    rw [h1]
    dsimp only
    split
    · refine gigInv_set_gig_status st.gigs ((f c).gig_id) "in_progress"
        (Or.inl rfl) hinv ?_
      intro g hg hid
      exact hset c (List.mem_of_find?_eq_some hfc) g hg
        (by rw [hid, hfgig c])
    · exact hinv

/-- C4, counterexample: from a reachable state (one open gig with a pending
application), accepting the application, cancelling the automatically
created contract, and then completing that same contract yields a gig whose
status is `completed` while `seeker_id` is unset, violating the claimed
iff-invariant. -/
theorem c4_counterexample :
    (complete_contract
      (cancel_contract
        (update_application_status
          ⟨[⟨1, 10, none, "open", 0, 0, none⟩], [⟨1, 1, 2, "pending"⟩],
            [], 1⟩
          10 1 "accepted")
        10 1)
      10 1).gigs
      = [⟨1, 10, none, "completed", 0, 0, none⟩]
    ∧ ¬ GigInv ⟨1, 10, none, "completed", 0, 0, none⟩ :=
  ⟨by decide, by decide⟩

/-- C4 (amended): application acceptance and contract cancellation preserve
the seeker-iff-status invariant unconditionally, and contract signing and
completion preserve it provided every gig referenced by a stored contract
has its seeker set; without that proviso the invariant can break, because
signing and completion set the gig's status without touching `seeker_id`
(e.g. cancelling a contract and then completing it leaves a `completed` gig
with no seeker). -/
theorem c4_gig_invariant (st : MarketState) (caller app_id cid : Nat)
    (app_status : String) (signature : Option String)
    (hinv : ∀ g ∈ st.gigs, GigInv g) :
    (∀ g ∈ (update_application_status st caller app_id app_status).gigs,
      GigInv g)
    ∧ (∀ g ∈ (cancel_contract st caller cid).gigs, GigInv g)
    ∧ ((∀ co ∈ st.contracts, ∀ g ∈ st.gigs, g.id = co.gig_id →
          g.seeker_id.isSome = true) →
        (∀ g ∈ (sign_contract st caller cid signature).gigs, GigInv g)
        ∧ (∀ g ∈ (complete_contract st caller cid).gigs, GigInv g)) := by
  refine ⟨?_, ?_, ?_⟩
  · unfold update_application_status
    split
    · exact hinv
    · split
      · exact hinv
      · split
        · exact hinv
        · split
          · exact hinv
          · split
            · exact gigInv_assign_gig _ _ _ hinv
            · exact hinv
  · unfold cancel_contract
    split
    · exact hinv
    · split
      · exact hinv
      · exact gigInv_reopen_gig _ _ hinv
  · intro hset
    constructor
    · by_cases hsig : truthyStr signature = false
      · unfold sign_contract
        rw [if_pos hsig]
        exact hinv
      · unfold sign_contract
        rw [if_neg hsig]
        split
        · exact hinv
        · rename_i c hfc
          split
          · exact hinv
          · by_cases hpc : (caller == c.provider_id) = true
            · rw [if_pos hpc]
              exact gigInv_sign_finish st cid
                (fun x => if x.id == cid then
                  { x with provider_signature := some (signature.getD "") }
                  else x)
                (fun x => by by_cases h : (x.id == cid) = true <;> simp [h])
                (fun x => by by_cases h : (x.id == cid) = true <;> simp [h])
                hinv hset
            · rw [if_neg hpc]
              exact gigInv_sign_finish st cid
                (fun x => if x.id == cid then
                  { x with seeker_signature := some (signature.getD "") }
                  else x)
                (fun x => by by_cases h : (x.id == cid) = true <;> simp [h])
                (fun x => by by_cases h : (x.id == cid) = true <;> simp [h])
                hinv hset
    · unfold complete_contract
      split
      · exact hinv
      · rename_i c hfc
        split
        · exact hinv
        · refine gigInv_set_gig_status st.gigs c.gig_id "completed"
            (Or.inr rfl) hinv ?_
          intro g hg hid
          exact hset c (List.mem_of_find?_eq_some hfc) g hg hid

/-- Witness for `c4_gig_invariant` on a concrete one-gig state. -/
theorem c4_gig_invariant_witness :
    GigInv ⟨1, 10, none, "open", 0, 0, none⟩ :=
  ((c4_gig_invariant ⟨[⟨1, 10, none, "open", 0, 0, none⟩], [], [], 1⟩
      10 1 1 "rejected" none (by decide)).2.2 (by decide)).2
    ⟨1, 10, none, "open", 0, 0, none⟩ (by decide)

/-- Representation invariant of the `contracts` table together with the
dual-signature data-model invariant: row ids are unique (`id` is the
primary key) and every row satisfies `SignInv`. -/
def ContractsOK (cs : List Contract) : Prop :=
  (cs.map (fun c => c.id)).Nodup ∧ ∀ c ∈ cs, SignInv c

/-- `SigPreserved` is reflexive. -/
theorem sigPreserved_refl (c : Contract) : SigPreserved c c :=
  ⟨rfl, fun h => h, fun h => h⟩

/-- `SigPreserved` is transitive. -/
theorem sigPreserved_trans {a b c : Contract} (h1 : SigPreserved a b)
    (h2 : SigPreserved b c) : SigPreserved a c :=
  ⟨h1.1.trans h2.1, fun hp => h2.2.1 (h1.2.1 hp), fun hs => h2.2.2 (h1.2.2 hs)⟩

/-- A status-only row update preserves identity and signatures. -/
theorem sigPreserved_status_update (y : Contract) (cid : Nat) (s : String) :
    SigPreserved y (if (y.id == cid) = true then { y with status := s }
      else y) := by
  split
  · exact ⟨rfl, fun h => h, fun h => h⟩
  · exact sigPreserved_refl y

/-- A row map relates a list to its image pointwise. -/
theorem forall2_map_self {R : Contract → Contract → Prop}
    (l : List Contract) (h : Contract → Contract)
    (H : ∀ x ∈ l, R x (h x)) : List.Forall₂ R l (l.map h) := by
  induction l with
  | nil => exact List.Forall₂.nil
  | cons a t ih =>
    exact List.Forall₂.cons (H a (by simp))
      (ih (fun x hx => H x (by simp [hx])))

/-- Pointwise signature preservation composes along two updates. -/
theorem forall2_sig_trans {l1 l2 l3 : List Contract}
    (h1 : List.Forall₂ SigPreserved l1 l2)
    (h2 : List.Forall₂ SigPreserved l2 l3) :
    List.Forall₂ SigPreserved l1 l3 := by
  induction h1 generalizing l3 with
  | nil =>
    cases h2
    exact List.Forall₂.nil
  | cons hab _ ih =>
    cases h2 with
    | cons hbc h2' =>
      exact List.Forall₂.cons (sigPreserved_trans hab hbc) (ih h2')

/-- An id-preserving row map leaves the id column unchanged. -/
theorem ids_map_eq (l : List Contract) (h : Contract → Contract)
    (hh : ∀ x, (h x).id = x.id) :
    (l.map h).map (fun c => c.id) = l.map (fun c => c.id) := by
  rw [List.map_map]
  exact List.map_congr_left (fun x _ => hh x)

/-- The closing step of `sign_contract` keeps the contract invariants and
signature monotonicity, for any signature pass `f` that preserves row ids
and statuses, never weakens signatures, and leaves non-matching rows
alone. -/
theorem sign_finish_contracts_ok (st : MarketState) (cid : Nat)
    (f : Contract → Contract)
    (hfid : ∀ x, (f x).id = x.id)
    (hfstat : ∀ x, (f x).status = x.status)
    (hfsig : ∀ x, SigPreserved x (f x))
    (hfnoop : ∀ x, (x.id == cid) = false → f x = x)
    (hok : ContractsOK st.contracts) :
    ContractsOK (sign_contract_finish st cid (st.contracts.map f)).contracts
    ∧ List.Forall₂ SigPreserved st.contracts
        (sign_contract_finish st cid (st.contracts.map f)).contracts := by
  obtain ⟨hids, hinv⟩ := hok
  rcases hfc : find_contract st.contracts cid with _ | c
  · have h1 : find_contract (st.contracts.map f) cid = none := by
      rw [find_contract_map st.contracts cid f hfid, hfc]
      rfl
    have hmapid : st.contracts.map f = st.contracts := by
      have hall := List.find?_eq_none.mp hfc
      have : ∀ x ∈ st.contracts, f x = x := by
        intro x hx
        refine hfnoop x ?_
        have := hall x hx
        simpa using this
      rw [List.map_congr_left this]
      simp
    unfold sign_contract_finish
    rw [h1]
    dsimp only
    rw [hmapid]
    exact ⟨⟨hids, hinv⟩,
      List.forall₂_same.mpr (fun x _ => sigPreserved_refl x)⟩
  · have hcid : (c.id == cid) = true := by
      have h := hfc
      unfold find_contract at h
      have h2 := List.find?_some h
      exact h2
    have hcmem : c ∈ st.contracts := List.mem_of_find?_eq_some hfc
    have h1 : find_contract (st.contracts.map f) cid = some (f c) := by
      rw [find_contract_map st.contracts cid f hfid, hfc]
      rfl
    unfold sign_contract_finish
    rw [h1]
    dsimp only
    split
    · rename_i hboth
      constructor
      · constructor
        · simp only [set_contract_status]
          rw [ids_map_eq (st.contracts.map f) _
              (fun y => by by_cases h : (y.id == cid) = true <;> simp [h]),
            ids_map_eq st.contracts f hfid]
          exact hids
        · intro c2 hc2
          simp only [set_contract_status] at hc2
          rcases List.mem_map.mp hc2 with ⟨y, hy, hyc2⟩
          rcases List.mem_map.mp hy with ⟨x, hx, hxy⟩
          subst hxy
          subst hyc2
          by_cases hbe : (x.id == cid) = true
          · have hxc : x = c := List.inj_on_of_nodup_map hids hx hcmem
              (by rw [beq_iff_eq.mp hbe, beq_iff_eq.mp hcid])
            subst hxc
            have hfxid : ((f x).id == cid) = true := by
              rw [hfid x]
              exact hbe
            rw [if_pos hfxid]
            rw [Bool.and_eq_true] at hboth
            exact iff_of_true rfl ⟨hboth.1, hboth.2⟩
          · have hfx : f x = x := hfnoop x (by simpa using hbe)
            have hfxid : ¬((f x).id == cid) = true := by
              rw [hfid x]
              exact fun h => hbe h
            rw [if_neg hfxid, hfx]
            exact hinv x hx
      · simp only [set_contract_status]
        rw [List.map_map]
        refine forall2_map_self st.contracts _ ?_
        intro x _
        exact sigPreserved_trans (hfsig x)
          (sigPreserved_status_update (f x) cid "signed")
    · rename_i hnb
      constructor
      · constructor
        · rw [ids_map_eq st.contracts f hfid]
          exact hids
        · intro c2 hc2
          rcases List.mem_map.mp hc2 with ⟨x, hx, hxc2⟩
          subst hxc2
          by_cases hbe : (x.id == cid) = true
          · have hxc : x = c := List.inj_on_of_nodup_map hids hx hcmem
              (by rw [beq_iff_eq.mp hbe, beq_iff_eq.mp hcid])
            subst hxc
            refine iff_of_false ?_ ?_
            · intro hsg
              have hx2 : x.status = "signed" := by
                rw [← hfstat x]
                exact hsg
              have hboth2 := (hinv x hx).mp hx2
              rcases hfsig x with ⟨_, hp, hs⟩
              exact hnb (by
                rw [Bool.and_eq_true]
                exact ⟨hp hboth2.1, hs hboth2.2⟩)
            · intro hboth2
              exact hnb (by
                rw [Bool.and_eq_true]
                exact ⟨hboth2.1, hboth2.2⟩)
          · rw [hfnoop x (by simpa using hbe)]
            exact hinv x hx
      · exact forall2_map_self st.contracts f (fun x _ => hfsig x)

/-- A single `sign_contract` request keeps the contract invariants and never
weakens a stored signature. -/
theorem sign_contract_step (st : MarketState) (caller cid : Nat)
    (signature : Option String) (hok : ContractsOK st.contracts) :
    ContractsOK (sign_contract st caller cid signature).contracts
    ∧ List.Forall₂ SigPreserved st.contracts
        (sign_contract st caller cid signature).contracts := by
  have hrefl : List.Forall₂ SigPreserved st.contracts st.contracts :=
    List.forall₂_same.mpr (fun x _ => sigPreserved_refl x)
  by_cases hsig : truthyStr signature = false
  · unfold sign_contract
    rw [if_pos hsig]
    exact ⟨hok, hrefl⟩
  · have hsig2 : truthyStr (some (signature.getD "")) = true := by
      rcases signature with _ | s
      · exact absurd rfl hsig
      · simpa [truthyStr] using hsig
    unfold sign_contract
    rw [if_neg hsig]
    split
    · exact ⟨hok, hrefl⟩
    · rename_i c hfc
      split
      · exact ⟨hok, hrefl⟩
      · by_cases hpc : (caller == c.provider_id) = true
        · rw [if_pos hpc]
          refine sign_finish_contracts_ok st cid
            (fun x => if x.id == cid then
              { x with provider_signature := some (signature.getD "") }
              else x)
            (fun x => by by_cases h : (x.id == cid) = true <;> simp [h])
            (fun x => by by_cases h : (x.id == cid) = true <;> simp [h])
            (fun x => ?_) (fun x h => by simp [h]) hok
          dsimp only
          by_cases h : (x.id == cid) = true
          · rw [if_pos h]
            exact ⟨rfl, fun _ => hsig2, fun hs => hs⟩
          · rw [if_neg h]
            exact sigPreserved_refl x
        · rw [if_neg hpc]
          refine sign_finish_contracts_ok st cid
            (fun x => if x.id == cid then
              { x with seeker_signature := some (signature.getD "") }
              else x)
            (fun x => by by_cases h : (x.id == cid) = true <;> simp [h])
            (fun x => by by_cases h : (x.id == cid) = true <;> simp [h])
            (fun x => ?_) (fun x h => by simp [h]) hok
          dsimp only
          by_cases h : (x.id == cid) = true
          · rw [if_pos h]
            exact ⟨rfl, fun hp => hp, fun _ => hsig2⟩
          · rw [if_neg h]
            exact sigPreserved_refl x

/-- C8: for every contract store whose rows have unique ids and satisfy the
dual-signature invariant (as freshly created contracts do: status `pending`,
no signatures), after any sequence of sign requests every contract's status
is `signed` exactly when both its signatures are present, and signing is
monotonic: a signature present before the sequence is still present after
it, row by row. -/
theorem c8_contract_signing (st : MarketState)
    (ops : List (Nat × Nat × Option String))
    (hids : (st.contracts.map (fun c => c.id)).Nodup)
    (hinv : ∀ c ∈ st.contracts, SignInv c) :
    (∀ c ∈ (sign_sequence st ops).contracts, SignInv c)
    ∧ List.Forall₂ SigPreserved st.contracts
        (sign_sequence st ops).contracts := by
  have main : ∀ (ops : List (Nat × Nat × Option String)) (st : MarketState),
      ContractsOK st.contracts →
      ContractsOK (sign_sequence st ops).contracts
      ∧ List.Forall₂ SigPreserved st.contracts
          (sign_sequence st ops).contracts := by
    intro ops
    induction ops with
    | nil =>
      intro st hok
      exact ⟨hok, List.forall₂_same.mpr (fun x _ => sigPreserved_refl x)⟩
    | cons op t ih =>
      intro st hok
      have hstep := sign_contract_step st op.1 op.2.1 op.2.2 hok
      have hrest := ih (sign_contract st op.1 op.2.1 op.2.2) hstep.1
      exact ⟨hrest.1, forall2_sig_trans hstep.2 hrest.2⟩
  have h := main ops st ⟨hids, hinv⟩
  exact ⟨h.1.2, h.2⟩

/-- Witness for `c8_contract_signing`: provider and seeker sign a fresh
pending contract in turn; the resulting row is `signed` with both
signatures present and satisfies the invariant. -/
theorem c8_contract_signing_witness :
    SignInv ⟨1, 1, 10, 2, some "sigP", some "sigS", "signed"⟩ :=
  (c8_contract_signing ⟨[], [], [⟨1, 1, 10, 2, none, none, "pending"⟩], 2⟩
      [(10, 1, some "sigP"), (2, 1, some "sigS")]
      (by decide) (by decide)).1
    ⟨1, 1, 10, 2, some "sigP", some "sigS", "signed"⟩ (by decide)

end GigUp
